import Mathlib

set_option maxHeartbeats 1000000

/-! Shallow embedding of `src/src/main.rs` of `active_rdc_webhook_notifier`.

The Rust `HashMap<String, _>` is modelled as an association list with
pairwise-distinct keys (`wfMap`); `Entry::Vacant` insertion appends a fresh
key, occupied entries are mutated in place (`aset`).  Fallible externals
(session fetch, webhook post) are modelled as explicit `Except` / `Bool`
inputs; the `unwrap` panic in `read_active_connections` is `Option.none`. -/

/-- Session states reported by the remote-desktop query layer (the
`rdc_connections` crate wraps the Windows WTS connect-state enumeration).
`main.rs` only ever compares a state with `Active` and only ever writes
`Disconnected` when it infers absence; the remaining constructors are the
other externally supplied states, all treated as non-Active. -/
inductive RemoteDesktopSessionState where
  | Active
  | Connected
  | ConnectQuery
  | Shadow
  | Disconnected
  | Idle
  | Listen
  | Reset
  | Down
  | Init
  deriving DecidableEq, Repr

/-- The `client_info` field of a session record: raw client name and user. -/
structure ClientInfo where
  client : String
  user : String
  deriving DecidableEq, Repr

/-- One entry of the snapshot a server reports (`RemoteDesktopSessionInfo`). -/
structure RemoteDesktopSessionInfo where
  client_info : ClientInfo
  state : RemoteDesktopSessionState
  deriving DecidableEq, Repr

/-- The per-client record stored in a table (`struct ClientData`). -/
structure ClientData where
  state : RemoteDesktopSessionState
  user : String
  deriving DecidableEq, Repr

/-- Association-list lookup, the model of `HashMap::get`. -/
def alookup {α : Type} : List (String × α) → String → Option α
  | [], _ => none
  | (k, v) :: rest, c => if k = c then some v else alookup rest c

/-- Association-list in-place overwrite of an existing key, the model of
`*prev_state = …` through `HashMap::get_mut`.  A missing key is left alone
(the code only calls this on occupied entries). -/
def aset {α : Type} : List (String × α) → String → α → List (String × α)
  | [], _, _ => []
  | (k, v) :: rest, c, d =>
      if k = c then (k, d) :: aset rest c d else (k, v) :: aset rest c d

/-- Keys pairwise distinct: the invariant every Rust `HashMap` maintains. -/
abbrev wfMap {α : Type} (m : List (String × α)) : Prop := (m.map Prod.fst).Nodup

/-- `const ACTIVATED` of `update_state`. -/
def ACTIVATED : String := "is now connected to"

/-- `const DEACTIVATED` of `update_state`. -/
def DEACTIVATED : String := "is disconnected from"

/-- `format!("'{}' {}", client, ACTIVATED)`. -/
def activatedMsg (client : String) : String := "'" ++ client ++ "' " ++ ACTIVATED

/-- `format!("'{}' {}", client, DEACTIVATED)`. -/
def deactivatedMsg (client : String) : String := "'" ++ client ++ "' " ++ DEACTIVATED

/-- The body of the `client_info.iter().for_each(|i| …)` closure of
`update_state`: process one snapshot entry against the table, returning the
updated table and the events pushed by this entry (zero or one). -/
def processOne (m : List (String × ClientData)) (i : RemoteDesktopSessionInfo) :
    List (String × ClientData) × List String :=
  let client := i.client_info.client
  let user := i.client_info.user
  match alookup m client with
  | none =>
      (m ++ [(client, ⟨i.state, user⟩)],
        if i.state = RemoteDesktopSessionState.Active then [activatedMsg client] else [])
  | some prev =>
      (aset m client ⟨i.state, user⟩,
        if i.state = RemoteDesktopSessionState.Active then
          if prev.state ≠ RemoteDesktopSessionState.Active then [activatedMsg client] else []
        else
          if i.state ≠ RemoteDesktopSessionState.Active ∧
              prev.state = RemoteDesktopSessionState.Active then
            [deactivatedMsg client]
          else [])

/-- Phase 1 of `update_state`: the `for_each` over the snapshot, events in
snapshot order. -/
def processList (m : List (String × ClientData)) :
    List RemoteDesktopSessionInfo → List (String × ClientData) × List String
  | [] => (m, [])
  | i :: rest =>
      let r1 := processOne m i
      let r2 := processList r1.1 rest
      (r2.1, r1.2 ++ r2.2)

/-- `client_info.iter().any(|i| &i.client_info.client == client.0)`. -/
def snapshotHasClient (client_info : List RemoteDesktopSessionInfo) (c : String) : Bool :=
  client_info.any (fun i => i.client_info.client == c)

/-- Phase 2 of `update_state`: the `for client in &mut self.data` absence
pass, in table iteration order. -/
def absenceList (client_info : List RemoteDesktopSessionInfo) :
    List (String × ClientData) → List (String × ClientData) × List String
  | [] => ([], [])
  | (c, d) :: rest =>
      let r := absenceList client_info rest
      if snapshotHasClient client_info c = false ∧
          d.state = RemoteDesktopSessionState.Active then
        ((c, ⟨RemoteDesktopSessionState.Disconnected, d.user⟩) :: r.1,
          deactivatedMsg c :: r.2)
      else
        ((c, d) :: r.1, r.2)

/-- `struct ClientStateMap { data: HashMap<String, ClientData> }`. -/
structure ClientStateMap where
  data : List (String × ClientData)
  deriving DecidableEq, Repr

/-- `ClientStateMap::update_state`: Rust mutates `self` and returns the event
vector; the model returns the new table together with the events. -/
def ClientStateMap.update_state (self : ClientStateMap)
    (client_info : List RemoteDesktopSessionInfo) : ClientStateMap × List String :=
  let r1 := processList self.data client_info
  let r2 := absenceList client_info r1.1
  (⟨r2.1⟩, r1.2 ++ r2.2)

/-- `type ServerClientMap = HashMap<String, ClientStateMap>`. -/
abbrev ServerClientMap : Type := List (String × ClientStateMap)

/-- `read_active_connections`: takes the polled server's name, the outcome of
`server_handle.get_updated_info()` (an external collaborator, so supplied as
an input), and the shared registry.  `none` models the panic of
`locked_state.get_mut(&server_handle.name).unwrap()`; the fetch-error arm
logs and returns no events, leaving the registry untouched. -/
def read_active_connections (serverName : String)
    (fetchResult : Except String (List RemoteDesktopSessionInfo))
    (state_map : ServerClientMap) : Option (ServerClientMap × List String) :=
  match fetchResult with
  | Except.error _ => some (state_map, [])
  | Except.ok server_info_v =>
      match alookup state_map serverName with
      | none => none
      | some client_state_map =>
          let r := client_state_map.update_state server_info_v
          some (aset state_map serverName r.1,
            r.2.map (fun out_string => out_string ++ " '" ++ serverName ++ "'"))

/-- The per-cycle state/event part of `refresh_all_connections`: one task per
server, each holding the registry lock for exactly its own update.  A task's
outcome is `Except.error` when `RemoteServer::new` or `get_updated_info`
fails (both arms log, touch nothing and contribute no events).  The tasks
only ever write their own server's key, so any interleaving of the lock
acquisitions produces this result; the model threads them in join order. -/
def refresh_all_connections :
    List (String × Except String (List RemoteDesktopSessionInfo)) → ServerClientMap →
      Option (ServerClientMap × List String)
  | [], m => some (m, [])
  | (server, outcome) :: rest, m =>
      match read_active_connections server outcome m with
      | none => none
      | some (m1, evs) =>
          match refresh_all_connections rest m1 with
          | none => none
          | some (m2, evs2) => some (m2, evs ++ evs2)

/-- The `for st in &connection_status { msg_sender.post(st).await? }` loop of
`refresh_all_connections` for one task's event batch.  `sinkFails msg = true`
models `post` returning `Err`.  Result: the messages actually handed to the
sink, in order, and whether the loop completed (`false` = the `?` operator
propagated the error). -/
def postAll (sinkFails : String → Bool) : List String → List String × Bool
  | [] => ([], true)
  | msg :: rest =>
      if sinkFails msg then ([msg], false)
      else
        let r := postAll sinkFails rest
        (msg :: r.1, r.2)

/-- The outer `for t in tasks` delivery loop over the joined batches: a post
failure in one batch makes `refresh_all_connections` return `Err`, so later
batches are never reached. -/
def deliverCycle (sinkFails : String → Bool) : List (List String) → List String × Bool
  | [] => ([], true)
  | batch :: rest =>
      let r := postAll sinkFails batch
      if r.2 then
        let r2 := deliverCycle sinkFails rest
        (r.1 ++ r2.1, r2.2)
      else (r.1, false)

/-- Stored state of a client, when present. -/
def stateOf (m : List (String × ClientData)) (c : String) :
    Option RemoteDesktopSessionState :=
  (alookup m c).map ClientData.state

/-- Does an event string mention a given client, i.e. is it one of the two
messages `update_state` can emit for that client? -/
def mentionsClient (c e : String) : Bool :=
  (e == activatedMsg c) || (e == deactivatedMsg c)

/-- The client identities of a snapshot, in snapshot order. -/
def snapshotIds (client_info : List RemoteDesktopSessionInfo) : List String :=
  client_info.map (fun i => i.client_info.client)

/-! String lemmas: the two message formats are injective in the client name
and never collide with each other (their last characters differ). -/

lemma string_data_inj {a b : String} (h : a.data = b.data) : a = b := by
  cases a
  cases b
  exact congrArg String.mk h

lemma lastChar_activatedMsg (c : String) :
    (activatedMsg c).data.getLast? = some 'o' := by
  show ((("'" ++ c) ++ "' ") ++ ACTIVATED).data.getLast? = some 'o'
  rw [String.data_append]
  rw [List.getLast?_append_of_ne_nil _ (by decide)]
  decide

lemma lastChar_deactivatedMsg (c : String) :
    (deactivatedMsg c).data.getLast? = some 'm' := by
  show ((("'" ++ c) ++ "' ") ++ DEACTIVATED).data.getLast? = some 'm'
  rw [String.data_append]
  rw [List.getLast?_append_of_ne_nil _ (by decide)]
  decide

lemma activatedMsg_ne_deactivatedMsg (c c' : String) :
    activatedMsg c ≠ deactivatedMsg c' := by
  intro h
  have h1 := lastChar_activatedMsg c
  rw [h, lastChar_deactivatedMsg] at h1
  exact absurd h1 (by decide)

lemma activatedMsg_inj {c c' : String} (h : activatedMsg c = activatedMsg c') :
    c = c' := by
  have hd : (activatedMsg c).data = (activatedMsg c').data := by rw [h]
  simp only [activatedMsg, String.data_append] at hd
  have h2 := List.append_cancel_right (List.append_cancel_right hd)
  exact string_data_inj (List.append_cancel_left h2)

lemma deactivatedMsg_inj {c c' : String} (h : deactivatedMsg c = deactivatedMsg c') :
    c = c' := by
  have hd : (deactivatedMsg c).data = (deactivatedMsg c').data := by rw [h]
  simp only [deactivatedMsg, String.data_append] at hd
  have h2 := List.append_cancel_right (List.append_cancel_right hd)
  exact string_data_inj (List.append_cancel_left h2)

lemma mentionsClient_activatedMsg (c x : String) :
    mentionsClient c (activatedMsg x) = true ↔ x = c := by
  simp only [mentionsClient, Bool.or_eq_true, beq_iff_eq]
  constructor
  · rintro (h | h)
    · exact activatedMsg_inj h
    · exact absurd h (activatedMsg_ne_deactivatedMsg x c)
  · intro h
    exact Or.inl (by rw [h])

lemma mentionsClient_deactivatedMsg (c x : String) :
    mentionsClient c (deactivatedMsg x) = true ↔ x = c := by
  simp only [mentionsClient, Bool.or_eq_true, beq_iff_eq]
  constructor
  · rintro (h | h)
    · exact absurd h.symm (activatedMsg_ne_deactivatedMsg c x)
    · exact deactivatedMsg_inj h
  · intro h
    exact Or.inr (by rw [h])

/-! Association-list lemmas. -/

lemma alookup_aset_ne {α : Type} (m : List (String × α)) (c c' : String) (d : α)
    (h : c' ≠ c) : alookup (aset m c d) c' = alookup m c' := by
  induction m with
  | nil => rfl
  | cons p rest ih =>
      obtain ⟨k, v⟩ := p
      by_cases hk : k = c
      · subst hk
        have hkc : ¬ k = c' := fun hh => h (hh.symm)
        simp [aset, alookup, hkc, ih]
      · by_cases hk' : k = c'
        · simp [aset, hk, alookup, hk', h]
        · simp [aset, hk, alookup, hk', ih]

lemma alookup_aset_self {α : Type} (m : List (String × α)) (c : String) (d p : α)
    (h : alookup m c = some p) : alookup (aset m c d) c = some d := by
  induction m with
  | nil => simp [alookup] at h
  | cons q rest ih =>
      obtain ⟨k, v⟩ := q
      by_cases hk : k = c
      · subst hk
        simp [aset, alookup]
      · simp only [alookup, if_neg hk] at h
        simp [aset, hk, alookup, ih h]

lemma alookup_append_some {α : Type} (m ext : List (String × α)) (c : String) (p : α)
    (h : alookup m c = some p) : alookup (m ++ ext) c = some p := by
  induction m with
  | nil => simp [alookup] at h
  | cons q rest ih =>
      obtain ⟨k, v⟩ := q
      by_cases hk : k = c
      · simp_all [alookup]
      · simp only [alookup, if_neg hk] at h
        simp [alookup, hk, ih h]

lemma alookup_append_one_self {α : Type} (m : List (String × α)) (c : String) (d : α)
    (h : alookup m c = none) : alookup (m ++ [(c, d)]) c = some d := by
  induction m with
  | nil => simp [alookup]
  | cons q rest ih =>
      obtain ⟨k, v⟩ := q
      by_cases hk : k = c
      · simp [alookup, hk] at h
      · simp only [alookup, if_neg hk] at h
        simp [alookup, hk, ih h]

lemma alookup_append_one_ne {α : Type} (m : List (String × α)) (c c' : String) (d : α)
    (h : c' ≠ c) : alookup (m ++ [(c, d)]) c' = alookup m c' := by
  induction m with
  | nil =>
      have hcc : ¬ c = c' := fun hh => h hh.symm
      simp [alookup, hcc]
  | cons q rest ih =>
      obtain ⟨k, v⟩ := q
      by_cases hk : k = c'
      · simp [alookup, hk]
      · simp [alookup, hk, ih]

lemma map_fst_aset {α : Type} (m : List (String × α)) (c : String) (d : α) :
    (aset m c d).map Prod.fst = m.map Prod.fst := by
  induction m with
  | nil => rfl
  | cons q rest ih =>
      obtain ⟨k, v⟩ := q
      by_cases hk : k = c
      · simp [aset, hk, ih]
      · simp [aset, hk, ih]

lemma alookup_isSome_of_mem_fst {α : Type} (m : List (String × α)) (c : String)
    (h : c ∈ m.map Prod.fst) : (alookup m c).isSome := by
  induction m with
  | nil => simp at h
  | cons q rest ih =>
      obtain ⟨k, v⟩ := q
      by_cases hk : k = c
      · simp [alookup, hk]
      · simp only [List.map_cons, List.mem_cons] at h
        rcases h with h | h
        · exact absurd h.symm hk
        · simp [alookup, hk, ih h]

lemma mem_fst_of_alookup_isSome {α : Type} (m : List (String × α)) (c : String)
    (h : (alookup m c).isSome) : c ∈ m.map Prod.fst := by
  induction m with
  | nil => simp [alookup] at h
  | cons q rest ih =>
      obtain ⟨k, v⟩ := q
      by_cases hk : k = c
      · simp [hk]
      · simp only [alookup, if_neg hk] at h
        simp [ih h]

lemma alookup_of_mem_wf {α : Type} (m : List (String × α)) (c : String) (d : α)
    (hwf : wfMap m) (h : (c, d) ∈ m) : alookup m c = some d := by
  induction m with
  | nil => simp at h
  | cons q rest ih =>
      obtain ⟨k, v⟩ := q
      simp only [wfMap, List.map_cons, List.nodup_cons] at hwf
      rcases List.mem_cons.mp h with h | h
      · rw [Prod.mk.injEq] at h
        obtain ⟨hk, hd⟩ := h
        subst hk
        subst hd
        simp [alookup]
      · have hk : k ≠ c := by
          intro hk
          subst hk
          exact hwf.1 (List.mem_map.mpr ⟨(k, d), h, rfl⟩)
        simp [alookup, hk, ih hwf.2 h]

lemma mem_of_alookup_wf {α : Type} (m : List (String × α)) (c : String) (d : α)
    (h : alookup m c = some d) : (c, d) ∈ m := by
  induction m with
  | nil => simp [alookup] at h
  | cons q rest ih =>
      obtain ⟨k, v⟩ := q
      by_cases hk : k = c
      · subst hk
        simp [alookup] at h
        rw [← h]
        exact List.mem_cons_self _ _
      · simp only [alookup, if_neg hk] at h
        exact List.mem_cons_of_mem _ (ih h)

/-! `processOne` branch equations and frame lemmas. -/

lemma processOne_none (m : List (String × ClientData)) (i : RemoteDesktopSessionInfo)
    (h : alookup m i.client_info.client = none) :
    processOne m i =
      (m ++ [(i.client_info.client, ⟨i.state, i.client_info.user⟩)],
        if i.state = RemoteDesktopSessionState.Active
          then [activatedMsg i.client_info.client] else []) := by
  simp only [processOne]
  rw [h]

lemma processOne_some (m : List (String × ClientData)) (i : RemoteDesktopSessionInfo)
    (prev : ClientData) (h : alookup m i.client_info.client = some prev) :
    processOne m i =
      (aset m i.client_info.client ⟨i.state, i.client_info.user⟩,
        if i.state = RemoteDesktopSessionState.Active then
          if prev.state ≠ RemoteDesktopSessionState.Active
            then [activatedMsg i.client_info.client] else []
        else
          if i.state ≠ RemoteDesktopSessionState.Active ∧
              prev.state = RemoteDesktopSessionState.Active
            then [deactivatedMsg i.client_info.client] else []) := by
  simp only [processOne]
  rw [h]

lemma processOne_lookup_self (m : List (String × ClientData)) (i : RemoteDesktopSessionInfo) :
    alookup (processOne m i).1 i.client_info.client =
      some ⟨i.state, i.client_info.user⟩ := by
  cases h : alookup m i.client_info.client with
  | none =>
      rw [processOne_none m i h]
      exact alookup_append_one_self _ _ _ h
  | some prev =>
      rw [processOne_some m i prev h]
      exact alookup_aset_self _ _ _ prev h

lemma processOne_lookup_ne (m : List (String × ClientData)) (i : RemoteDesktopSessionInfo)
    (c : String) (h : i.client_info.client ≠ c) :
    alookup (processOne m i).1 c = alookup m c := by
  cases h1 : alookup m i.client_info.client with
  | none =>
      rw [processOne_none m i h1]
      exact alookup_append_one_ne _ _ _ _ h.symm
  | some prev =>
      rw [processOne_some m i prev h1]
      exact alookup_aset_ne _ _ _ _ h.symm

lemma processOne_isSome (m : List (String × ClientData)) (i : RemoteDesktopSessionInfo)
    (c : String) (h : (alookup m c).isSome) : (alookup (processOne m i).1 c).isSome := by
  by_cases hc : i.client_info.client = c
  · subst hc
    rw [processOne_lookup_self]
    rfl
  · rw [processOne_lookup_ne m i c hc]
    exact h

lemma processOne_wf (m : List (String × ClientData)) (i : RemoteDesktopSessionInfo)
    (h : wfMap m) : wfMap (processOne m i).1 := by
  cases h1 : alookup m i.client_info.client with
  | none =>
      rw [processOne_none m i h1]
      have hnm : i.client_info.client ∉ m.map Prod.fst := by
        intro hmem
        have := alookup_isSome_of_mem_fst m _ hmem
        rw [h1] at this
        exact absurd this (by simp)
      simp only [wfMap, List.map_append, List.map_cons, List.map_nil]
      rw [List.nodup_append]
      refine ⟨h, List.nodup_singleton _, ?_⟩
      intro a ha hb
      simp only [List.mem_singleton] at hb
      subst hb
      exact hnm ha
  | some prev =>
      rw [processOne_some m i prev h1]
      unfold wfMap
      rw [map_fst_aset]
      exact h

/-! `processOne` event lemmas. -/

lemma processOne_events_cases (m : List (String × ClientData))
    (i : RemoteDesktopSessionInfo) :
    ∀ e ∈ (processOne m i).2,
      e = activatedMsg i.client_info.client ∨ e = deactivatedMsg i.client_info.client := by
  intro e he
  cases h1 : alookup m i.client_info.client with
  | none =>
      rw [processOne_none m i h1] at he
      simp only at he
      split at he
      · exact Or.inl (List.mem_singleton.mp he)
      · exact absurd he (List.not_mem_nil e)
  | some prev =>
      rw [processOne_some m i prev h1] at he
      simp only at he
      split at he
      · split at he
        · exact Or.inl (List.mem_singleton.mp he)
        · exact absurd he (List.not_mem_nil e)
      · split at he
        · exact Or.inr (List.mem_singleton.mp he)
        · exact absurd he (List.not_mem_nil e)

lemma processOne_events_len (m : List (String × ClientData))
    (i : RemoteDesktopSessionInfo) : (processOne m i).2.length ≤ 1 := by
  cases h1 : alookup m i.client_info.client with
  | none =>
      rw [processOne_none m i h1]
      simp only
      split <;> simp
  | some prev =>
      rw [processOne_some m i prev h1]
      simp only
      split
      · split <;> simp
      · split <;> simp

lemma processOne_act_mem (m : List (String × ClientData)) (i : RemoteDesktopSessionInfo)
    (c : String) :
    activatedMsg c ∈ (processOne m i).2 ↔
      i.client_info.client = c ∧ i.state = RemoteDesktopSessionState.Active ∧
        stateOf m c ≠ some RemoteDesktopSessionState.Active := by
  cases h1 : alookup m i.client_info.client with
  | none =>
      rw [processOne_none m i h1]
      simp only
      by_cases h2 : i.state = RemoteDesktopSessionState.Active
      · rw [if_pos h2]
        constructor
        · intro he
          have hc := activatedMsg_inj (List.mem_singleton.mp he)
          refine ⟨hc.symm, h2, ?_⟩
          rw [← hc.symm, stateOf, h1]
          simp
        · rintro ⟨hc, -, -⟩
          rw [hc]
          exact List.mem_singleton.mpr rfl
      · rw [if_neg h2]
        simp [h2]
  | some prev =>
      rw [processOne_some m i prev h1]
      simp only
      by_cases h2 : i.state = RemoteDesktopSessionState.Active
      · rw [if_pos h2]
        by_cases h3 : prev.state = RemoteDesktopSessionState.Active
        · rw [if_neg (by simpa using h3)]
          constructor
          · intro he
            exact absurd he (List.not_mem_nil _)
          · rintro ⟨hc, -, hs⟩
            rw [← hc, stateOf, h1] at hs
            simp [h3] at hs
        · rw [if_pos (by simpa using h3)]
          constructor
          · intro he
            have hc := activatedMsg_inj (List.mem_singleton.mp he)
            refine ⟨hc.symm, h2, ?_⟩
            rw [← hc.symm, stateOf, h1]
            simpa using h3
          · rintro ⟨hc, -, -⟩
            rw [hc]
            exact List.mem_singleton.mpr rfl
      · rw [if_neg h2]
        constructor
        · intro he
          split at he
          · exact absurd (List.mem_singleton.mp he)
              (activatedMsg_ne_deactivatedMsg c i.client_info.client)
          · exact absurd he (List.not_mem_nil _)
        · rintro ⟨-, hs, -⟩
          exact absurd hs h2

lemma processOne_deact_mem (m : List (String × ClientData)) (i : RemoteDesktopSessionInfo)
    (c : String) :
    deactivatedMsg c ∈ (processOne m i).2 ↔
      i.client_info.client = c ∧ i.state ≠ RemoteDesktopSessionState.Active ∧
        stateOf m c = some RemoteDesktopSessionState.Active := by
  cases h1 : alookup m i.client_info.client with
  | none =>
      rw [processOne_none m i h1]
      simp only
      constructor
      · intro he
        split at he
        · exact absurd (List.mem_singleton.mp he).symm
            (activatedMsg_ne_deactivatedMsg i.client_info.client c)
        · exact absurd he (List.not_mem_nil _)
      · rintro ⟨hc, -, hs⟩
        rw [← hc, stateOf, h1] at hs
        simp at hs
  | some prev =>
      rw [processOne_some m i prev h1]
      simp only
      by_cases h2 : i.state = RemoteDesktopSessionState.Active
      · rw [if_pos h2]
        constructor
        · intro he
          split at he
          · exact absurd (List.mem_singleton.mp he).symm
              (activatedMsg_ne_deactivatedMsg i.client_info.client c)
          · exact absurd he (List.not_mem_nil _)
        · rintro ⟨-, hs, -⟩
          exact absurd h2 hs
      · rw [if_neg h2]
        by_cases h3 : prev.state = RemoteDesktopSessionState.Active
        · rw [if_pos ⟨h2, h3⟩]
          constructor
          · intro he
            have hc := deactivatedMsg_inj (List.mem_singleton.mp he)
            refine ⟨hc.symm, h2, ?_⟩
            rw [← hc.symm, stateOf, h1]
            simp [h3]
          · rintro ⟨hc, -, -⟩
            rw [hc]
            exact List.mem_singleton.mpr rfl
        · rw [if_neg (by simp [h3])]
          constructor
          · intro he
            exact absurd he (List.not_mem_nil _)
          · rintro ⟨hc, -, hs⟩
            rw [← hc, stateOf, h1] at hs
            simp [h3] at hs

/-! Bridging lemmas about the snapshot-membership test. -/

lemma snapshotHasClient_true_of_mem (s : List RemoteDesktopSessionInfo)
    (i : RemoteDesktopSessionInfo) (h : i ∈ s) :
    snapshotHasClient s i.client_info.client = true := by
  simp only [snapshotHasClient, List.any_eq_true]
  exact ⟨i, h, by simp⟩

lemma snapshotHasClient_false_iff (s : List RemoteDesktopSessionInfo) (c : String) :
    snapshotHasClient s c = false ↔ ∀ i ∈ s, i.client_info.client ≠ c := by
  simp [snapshotHasClient]

lemma snapshotHasClient_false_iff_ids (s : List RemoteDesktopSessionInfo) (c : String) :
    snapshotHasClient s c = false ↔ c ∉ snapshotIds s := by
  rw [snapshotHasClient_false_iff]
  constructor
  · intro h hmem
    unfold snapshotIds at hmem
    obtain ⟨i, hi, hc⟩ := List.mem_map.mp hmem
    exact h i hi hc
  · intro h i hi hc
    exact h (List.mem_map.mpr ⟨i, hi, hc⟩)

/-! `processList` lemmas: lookups, well-formedness and event membership. -/

lemma processList_lookup_of_not_mem (s : List RemoteDesktopSessionInfo)
    (c : String) :
    ∀ m : List (String × ClientData), (∀ i ∈ s, i.client_info.client ≠ c) →
      alookup (processList m s).1 c = alookup m c := by
  induction s with
  | nil =>
      intro m _
      rfl
  | cons i rest ih =>
      intro m h
      have h1 : i.client_info.client ≠ c := h i (List.mem_cons_self i rest)
      have h2 : ∀ j ∈ rest, j.client_info.client ≠ c :=
        fun j hj => h j (List.mem_cons_of_mem i hj)
      show alookup (processList (processOne m i).1 rest).1 c = alookup m c
      rw [ih (processOne m i).1 h2]
      exact processOne_lookup_ne m i c h1

lemma processList_isSome (s : List RemoteDesktopSessionInfo) (c : String) :
    ∀ m : List (String × ClientData), (alookup m c).isSome →
      (alookup (processList m s).1 c).isSome := by
  induction s with
  | nil =>
      intro m h
      exact h
  | cons i rest ih =>
      intro m h
      exact ih (processOne m i).1 (processOne_isSome m i c h)

lemma processList_wf (s : List RemoteDesktopSessionInfo) :
    ∀ m : List (String × ClientData), wfMap m → wfMap (processList m s).1 := by
  induction s with
  | nil =>
      intro m h
      exact h
  | cons i rest ih =>
      intro m h
      exact ih (processOne m i).1 (processOne_wf m i h)

lemma processList_not_mentioned (s : List RemoteDesktopSessionInfo) (c : String) :
    ∀ m : List (String × ClientData), (∀ i ∈ s, i.client_info.client ≠ c) →
      activatedMsg c ∉ (processList m s).2 ∧ deactivatedMsg c ∉ (processList m s).2 := by
  induction s with
  | nil =>
      intro m _
      constructor <;> simp [processList]
  | cons i rest ih =>
      intro m h
      have h1 : i.client_info.client ≠ c := h i (List.mem_cons_self i rest)
      have h2 : ∀ j ∈ rest, j.client_info.client ≠ c :=
        fun j hj => h j (List.mem_cons_of_mem i hj)
      have hih := ih (processOne m i).1 h2
      have hact : activatedMsg c ∉ (processOne m i).2 := by
        intro he
        rcases processOne_events_cases m i _ he with hh | hh
        · exact h1 (activatedMsg_inj hh).symm
        · exact activatedMsg_ne_deactivatedMsg c i.client_info.client hh
      have hdeact : deactivatedMsg c ∉ (processOne m i).2 := by
        intro he
        rcases processOne_events_cases m i _ he with hh | hh
        · exact activatedMsg_ne_deactivatedMsg i.client_info.client c hh.symm
        · exact h1 (deactivatedMsg_inj hh).symm
      show activatedMsg c ∉ (processOne m i).2 ++ (processList (processOne m i).1 rest).2 ∧
        deactivatedMsg c ∉ (processOne m i).2 ++ (processList (processOne m i).1 rest).2
      constructor
      · intro he
        rcases List.mem_append.mp he with he | he
        · exact hact he
        · exact hih.1 he
      · intro he
        rcases List.mem_append.mp he with he | he
        · exact hdeact he
        · exact hih.2 he

lemma processList_lookup_entry (s : List RemoteDesktopSessionInfo)
    (hnd : (snapshotIds s).Nodup) (i : RemoteDesktopSessionInfo) (hi : i ∈ s) :
    ∀ m : List (String × ClientData),
      alookup (processList m s).1 i.client_info.client =
        some ⟨i.state, i.client_info.user⟩ := by
  induction s with
  | nil => exact absurd hi (List.not_mem_nil i)
  | cons j rest ih =>
      intro m
      simp only [snapshotIds, List.map_cons, List.nodup_cons] at hnd
      rcases List.mem_cons.mp hi with hi1 | hi1
      · subst hi1
        have hfresh : ∀ x ∈ rest, x.client_info.client ≠ i.client_info.client := by
          intro x hx hcx
          exact hnd.1 (List.mem_map.mpr ⟨x, hx, hcx⟩)
        show alookup (processList (processOne m i).1 rest).1 i.client_info.client = _
        rw [processList_lookup_of_not_mem rest _ _ hfresh]
        exact processOne_lookup_self m i
      · show alookup (processList (processOne m j).1 rest).1 i.client_info.client = _
        exact ih hnd.2 hi1 (processOne m j).1

lemma processList_act_mem (s : List RemoteDesktopSessionInfo) (c : String) :
    ∀ m : List (String × ClientData), (snapshotIds s).Nodup →
      (activatedMsg c ∈ (processList m s).2 ↔
        ((∃ i ∈ s, i.client_info.client = c ∧
            i.state = RemoteDesktopSessionState.Active) ∧
          stateOf m c ≠ some RemoteDesktopSessionState.Active)) := by
  induction s with
  | nil =>
      intro m _
      simp [processList]
  | cons i rest ih =>
      intro m hnd
      simp only [snapshotIds, List.map_cons, List.nodup_cons] at hnd
      obtain ⟨hnd1, hnd2⟩ := hnd
      show activatedMsg c ∈ (processOne m i).2 ++ (processList (processOne m i).1 rest).2 ↔ _
      rw [List.mem_append]
      by_cases hic : i.client_info.client = c
      · have hrest_ne : ∀ j ∈ rest, j.client_info.client ≠ c := by
          intro j hj hjc
          exact hnd1 (List.mem_map.mpr ⟨j, hj, by rw [hjc, ← hic]⟩)
        have hnot := (processList_not_mentioned rest c (processOne m i).1 hrest_ne).1
        have hhead := processOne_act_mem m i c
        constructor
        · rintro (he | he)
          · obtain ⟨-, h2, h3⟩ := hhead.mp he
            exact ⟨⟨i, List.mem_cons_self i rest, hic, h2⟩, h3⟩
          · exact absurd he hnot
        · rintro ⟨⟨j, hj, hjc, hjs⟩, h3⟩
          left
          rcases List.mem_cons.mp hj with rfl | hj'
          · exact hhead.mpr ⟨hic, hjs, h3⟩
          · exact absurd hjc (hrest_ne j hj')
      · have hhead : activatedMsg c ∉ (processOne m i).2 :=
          fun he => hic ((processOne_act_mem m i c).mp he).1
        have hst : stateOf (processOne m i).1 c = stateOf m c := by
          rw [stateOf, stateOf, processOne_lookup_ne m i c hic]
        have hih := ih (processOne m i).1 hnd2
        constructor
        · rintro (he | he)
          · exact absurd he hhead
          · obtain ⟨⟨j, hj, hjc, hjs⟩, h3⟩ := hih.mp he
            rw [hst] at h3
            exact ⟨⟨j, List.mem_cons_of_mem i hj, hjc, hjs⟩, h3⟩
        · rintro ⟨⟨j, hj, hjc, hjs⟩, h3⟩
          right
          rcases List.mem_cons.mp hj with rfl | hj'
          · exact absurd hjc hic
          · exact hih.mpr ⟨⟨j, hj', hjc, hjs⟩, by rw [hst]; exact h3⟩

lemma processList_deact_mem (s : List RemoteDesktopSessionInfo) (c : String) :
    ∀ m : List (String × ClientData), (snapshotIds s).Nodup →
      (deactivatedMsg c ∈ (processList m s).2 ↔
        ((∃ i ∈ s, i.client_info.client = c ∧
            i.state ≠ RemoteDesktopSessionState.Active) ∧
          stateOf m c = some RemoteDesktopSessionState.Active)) := by
  induction s with
  | nil =>
      intro m _
      simp [processList]
  | cons i rest ih =>
      intro m hnd
      simp only [snapshotIds, List.map_cons, List.nodup_cons] at hnd
      obtain ⟨hnd1, hnd2⟩ := hnd
      show deactivatedMsg c ∈ (processOne m i).2 ++ (processList (processOne m i).1 rest).2 ↔ _
      rw [List.mem_append]
      by_cases hic : i.client_info.client = c
      · have hrest_ne : ∀ j ∈ rest, j.client_info.client ≠ c := by
          intro j hj hjc
          exact hnd1 (List.mem_map.mpr ⟨j, hj, by rw [hjc, ← hic]⟩)
        have hnot := (processList_not_mentioned rest c (processOne m i).1 hrest_ne).2
        have hhead := processOne_deact_mem m i c
        constructor
        · rintro (he | he)
          · obtain ⟨-, h2, h3⟩ := hhead.mp he
            exact ⟨⟨i, List.mem_cons_self i rest, hic, h2⟩, h3⟩
          · exact absurd he hnot
        · rintro ⟨⟨j, hj, hjc, hjs⟩, h3⟩
          left
          rcases List.mem_cons.mp hj with rfl | hj'
          · exact hhead.mpr ⟨hic, hjs, h3⟩
          · exact absurd hjc (hrest_ne j hj')
      · have hhead : deactivatedMsg c ∉ (processOne m i).2 :=
          fun he => hic ((processOne_deact_mem m i c).mp he).1
        have hst : stateOf (processOne m i).1 c = stateOf m c := by
          rw [stateOf, stateOf, processOne_lookup_ne m i c hic]
        have hih := ih (processOne m i).1 hnd2
        constructor
        · rintro (he | he)
          · exact absurd he hhead
          · obtain ⟨⟨j, hj, hjc, hjs⟩, h3⟩ := hih.mp he
            rw [hst] at h3
            exact ⟨⟨j, List.mem_cons_of_mem i hj, hjc, hjs⟩, h3⟩
        · rintro ⟨⟨j, hj, hjc, hjs⟩, h3⟩
          right
          rcases List.mem_cons.mp hj with rfl | hj'
          · exact absurd hjc hic
          · exact hih.mpr ⟨⟨j, hj', hjc, hjs⟩, by rw [hst]; exact h3⟩

/-! `absenceList` lemmas. -/

lemma absenceList_map_fst (s : List RemoteDesktopSessionInfo)
    (m : List (String × ClientData)) :
    (absenceList s m).1.map Prod.fst = m.map Prod.fst := by
  induction m with
  | nil => rfl
  | cons p rest ih =>
      obtain ⟨k, d⟩ := p
      show ((if _ then _ else _ : List (String × ClientData) × List String)).1.map Prod.fst = _
      split <;> simp [ih]

lemma absenceList_lookup (s : List RemoteDesktopSessionInfo)
    (m : List (String × ClientData)) (c : String) :
    alookup (absenceList s m).1 c =
      (alookup m c).map (fun d =>
        if snapshotHasClient s c = false ∧ d.state = RemoteDesktopSessionState.Active
          then ⟨RemoteDesktopSessionState.Disconnected, d.user⟩ else d) := by
  induction m with
  | nil => rfl
  | cons p rest ih =>
      obtain ⟨k, d⟩ := p
      by_cases hk : k = c
      · subst hk
        by_cases hcond : snapshotHasClient s k = false ∧
            d.state = RemoteDesktopSessionState.Active
        · show alookup ((if _ then _ else _ : List (String × ClientData) × List String)).1 k = _
          rw [if_pos hcond]
          simp [alookup, hcond]
        · show alookup ((if _ then _ else _ : List (String × ClientData) × List String)).1 k = _
          rw [if_neg hcond]
          simp [alookup, hcond]
      · by_cases hcond : snapshotHasClient s k = false ∧
            d.state = RemoteDesktopSessionState.Active
        · show alookup ((if _ then _ else _ : List (String × ClientData) × List String)).1 c = _
          rw [if_pos hcond]
          simp [alookup, hk, ih]
        · show alookup ((if _ then _ else _ : List (String × ClientData) × List String)).1 c = _
          rw [if_neg hcond]
          simp [alookup, hk, ih]

lemma absenceList_act_not_mem (s : List RemoteDesktopSessionInfo)
    (m : List (String × ClientData)) (c : String) :
    activatedMsg c ∉ (absenceList s m).2 := by
  induction m with
  | nil => simp [absenceList]
  | cons p rest ih =>
      obtain ⟨k, d⟩ := p
      show activatedMsg c ∉ ((if _ then _ else _ : List (String × ClientData) × List String)).2
      split
      · intro he
        rcases List.mem_cons.mp he with he | he
        · exact activatedMsg_ne_deactivatedMsg c k he
        · exact ih he
      · exact ih

lemma absenceList_deact_mem (s : List RemoteDesktopSessionInfo)
    (m : List (String × ClientData)) (c : String) :
    deactivatedMsg c ∈ (absenceList s m).2 ↔
      ∃ d, (c, d) ∈ m ∧ snapshotHasClient s c = false ∧
        d.state = RemoteDesktopSessionState.Active := by
  induction m with
  | nil => simp [absenceList]
  | cons p rest ih =>
      obtain ⟨k, d⟩ := p
      show deactivatedMsg c ∈ ((if _ then _ else _ : List (String × ClientData) × List String)).2 ↔ _
      by_cases hcond : snapshotHasClient s k = false ∧
          d.state = RemoteDesktopSessionState.Active
      · rw [if_pos hcond]
        constructor
        · intro he
          rcases List.mem_cons.mp he with he | he
          · have hk := deactivatedMsg_inj he
            subst hk
            exact ⟨d, List.mem_cons_self _ _, hcond⟩
          · obtain ⟨d', hd', hrest⟩ := ih.mp he
            exact ⟨d', List.mem_cons_of_mem _ hd', hrest⟩
        · rintro ⟨d', hd', habs, hact⟩
          rcases List.mem_cons.mp hd' with he | he
          · rw [Prod.mk.injEq] at he
            rw [he.1]
            exact List.mem_cons_self _ _
          · exact List.mem_cons_of_mem _ (ih.mpr ⟨d', he, habs, hact⟩)
      · rw [if_neg hcond]
        rw [ih]
        constructor
        · rintro ⟨d', hd', habs, hact⟩
          exact ⟨d', List.mem_cons_of_mem _ hd', habs, hact⟩
        · rintro ⟨d', hd', habs, hact⟩
          rcases List.mem_cons.mp hd' with he | he
          · rw [Prod.mk.injEq] at he
            obtain ⟨hk, hd⟩ := he
            subst hk
            subst hd
            exact absurd ⟨habs, hact⟩ hcond
          · exact ⟨d', he, habs, hact⟩

lemma absenceList_events_shape (s : List RemoteDesktopSessionInfo)
    (m : List (String × ClientData)) :
    ∀ e ∈ (absenceList s m).2, ∃ p ∈ m, e = deactivatedMsg p.1 := by
  induction m with
  | nil => simp [absenceList]
  | cons p rest ih =>
      obtain ⟨k, d⟩ := p
      intro e he
      show ∃ q ∈ (k, d) :: rest, e = deactivatedMsg q.1
      by_cases hcond : snapshotHasClient s k = false ∧
          d.state = RemoteDesktopSessionState.Active
      · rw [show (absenceList s ((k, d) :: rest)).2 =
            deactivatedMsg k :: (absenceList s rest).2 by
              show ((if _ then _ else _ : List (String × ClientData) × List String)).2 = _
              rw [if_pos hcond]] at he
        rcases List.mem_cons.mp he with he | he
        · exact ⟨(k, d), List.mem_cons_self _ _, he⟩
        · obtain ⟨q, hq, hqe⟩ := ih e he
          exact ⟨q, List.mem_cons_of_mem _ hq, hqe⟩
      · rw [show (absenceList s ((k, d) :: rest)).2 = (absenceList s rest).2 by
              show ((if _ then _ else _ : List (String × ClientData) × List String)).2 = _
              rw [if_neg hcond]] at he
        obtain ⟨q, hq, hqe⟩ := ih e he
        exact ⟨q, List.mem_cons_of_mem _ hq, hqe⟩

lemma absenceList_deact_count_zero (s : List RemoteDesktopSessionInfo)
    (m : List (String × ClientData)) (c : String)
    (h : ∀ p ∈ m, p.1 ≠ c) :
    (absenceList s m).2.countP (fun e => e == deactivatedMsg c) = 0 := by
  rw [List.countP_eq_zero]
  intro e he
  obtain ⟨p, hp, rfl⟩ := absenceList_events_shape s m e he
  simp only [beq_iff_eq]
  intro heq
  exact h p hp (deactivatedMsg_inj heq)

lemma absenceList_mentions_count (s : List RemoteDesktopSessionInfo)
    (m : List (String × ClientData)) (c : String) :
    (absenceList s m).2.countP (mentionsClient c) ≤ (m.map Prod.fst).count c := by
  induction m with
  | nil => simp [absenceList]
  | cons p rest ih =>
      obtain ⟨k, d⟩ := p
      have hcount : ((k, d) :: rest).map Prod.fst = k :: rest.map Prod.fst := rfl
      rw [hcount, List.count_cons]
      by_cases hcond : snapshotHasClient s k = false ∧
          d.state = RemoteDesktopSessionState.Active
      · rw [show (absenceList s ((k, d) :: rest)).2 =
            deactivatedMsg k :: (absenceList s rest).2 by
              show ((if _ then _ else _ : List (String × ClientData) × List String)).2 = _
              rw [if_pos hcond]]
        rw [List.countP_cons]
        by_cases hk : k = c
        · have : mentionsClient c (deactivatedMsg k) = true :=
            (mentionsClient_deactivatedMsg c k).mpr hk
          rw [this, if_pos rfl, if_pos (by simp [hk])]
          exact Nat.add_le_add ih (Nat.le_refl 1)
        · have : mentionsClient c (deactivatedMsg k) = false := by
            rw [← Bool.not_eq_true]
            intro hh
            exact hk ((mentionsClient_deactivatedMsg c k).mp hh)
          rw [this, if_neg (by simp), if_neg (by simp [hk])]
          simpa using ih
      · rw [show (absenceList s ((k, d) :: rest)).2 = (absenceList s rest).2 by
              show ((if _ then _ else _ : List (String × ClientData) × List String)).2 = _
              rw [if_neg hcond]]
        exact le_trans ih (Nat.le_add_right _ _)

lemma absenceList_deact_count_one (s : List RemoteDesktopSessionInfo)
    (m : List (String × ClientData)) (c : String) (d : ClientData)
    (hwf : wfMap m) (hlk : alookup m c = some d)
    (habs : snapshotHasClient s c = false)
    (hact : d.state = RemoteDesktopSessionState.Active) :
    (absenceList s m).2.countP (fun e => e == deactivatedMsg c) = 1 := by
  induction m with
  | nil => simp [alookup] at hlk
  | cons p rest ih =>
      obtain ⟨k, dh⟩ := p
      simp only [wfMap, List.map_cons, List.nodup_cons] at hwf
      by_cases hk : k = c
      · subst hk
        simp [alookup] at hlk
        subst hlk
        rw [show (absenceList s ((k, dh) :: rest)).2 =
            deactivatedMsg k :: (absenceList s rest).2 by
              show ((if _ then _ else _ : List (String × ClientData) × List String)).2 = _
              rw [if_pos ⟨habs, hact⟩]]
        rw [List.countP_cons]
        have hz : (absenceList s rest).2.countP (fun e => e == deactivatedMsg k) = 0 := by
          apply absenceList_deact_count_zero
          intro q hq hqc
          exact hwf.1 (List.mem_map.mpr ⟨q, hq, hqc⟩)
        rw [hz]
        simp
      · simp only [alookup, if_neg hk] at hlk
        have hrec := ih hwf.2 hlk
        by_cases hcond : snapshotHasClient s k = false ∧
            dh.state = RemoteDesktopSessionState.Active
        · rw [show (absenceList s ((k, dh) :: rest)).2 =
              deactivatedMsg k :: (absenceList s rest).2 by
                show ((if _ then _ else _ : List (String × ClientData) × List String)).2 = _
                rw [if_pos hcond]]
          rw [List.countP_cons, hrec]
          have : ((deactivatedMsg k == deactivatedMsg c) : Bool) = false := by
            rw [← Bool.not_eq_true]
            intro hh
            exact hk (deactivatedMsg_inj (beq_iff_eq.mp hh))
          rw [this]
          simp
        · rw [show (absenceList s ((k, dh) :: rest)).2 = (absenceList s rest).2 by
                show ((if _ then _ else _ : List (String × ClientData) × List String)).2 = _
                rw [if_neg hcond]]
          exact hrec

lemma absenceList_no_events (s : List RemoteDesktopSessionInfo)
    (m : List (String × ClientData)) (hwf : wfMap m)
    (h : ∀ c d, alookup m c = some d → d.state = RemoteDesktopSessionState.Active →
      snapshotHasClient s c = true) :
    (absenceList s m).2 = [] := by
  induction m with
  | nil => rfl
  | cons p rest ih =>
      obtain ⟨k, d⟩ := p
      simp only [wfMap, List.map_cons, List.nodup_cons] at hwf
      have hcond : ¬ (snapshotHasClient s k = false ∧
          d.state = RemoteDesktopSessionState.Active) := by
        rintro ⟨habs, hact⟩
        have := h k d (by simp [alookup]) hact
        rw [this] at habs
        exact absurd habs (by simp)
      rw [show (absenceList s ((k, d) :: rest)).2 = (absenceList s rest).2 by
            show ((if _ then _ else _ : List (String × ClientData) × List String)).2 = _
            rw [if_neg hcond]]
      apply ih hwf.2
      intro c d' hlk hact
      have hk : k ≠ c := by
        intro hkc
        subst hkc
        exact hwf.1 (List.mem_map.mpr
          ⟨(k, d'), mem_of_alookup_wf rest k d' hlk, rfl⟩)
      have : alookup ((k, d) :: rest) c = some d' := by
        simp [alookup, hk, hlk]
      exact h c d' this hact

lemma processList_no_events (s : List RemoteDesktopSessionInfo) :
    ∀ m : List (String × ClientData),
      (∀ i ∈ s, stateOf m i.client_info.client = some i.state) →
        (processList m s).2 = [] ∧
          ∀ c, stateOf (processList m s).1 c = stateOf m c := by
  induction s with
  | nil =>
      intro m _
      exact ⟨rfl, fun c => rfl⟩
  | cons i rest ih =>
      intro m h
      have hi := h i (List.mem_cons_self i rest)
      rw [stateOf] at hi
      cases hl : alookup m i.client_info.client with
      | none =>
          rw [hl] at hi
          simp at hi
      | some prev =>
          rw [hl] at hi
          simp only [Option.map_some', Option.some.injEq] at hi
          have hev : (processOne m i).2 = [] := by
            rw [processOne_some m i prev hl]
            by_cases h2 : i.state = RemoteDesktopSessionState.Active
            · rw [if_pos h2]
              rw [if_neg (by simp [hi, h2])]
            · rw [if_neg h2]
              rw [if_neg (by
                rintro ⟨-, hp⟩
                rw [hi] at hp
                exact h2 hp)]
          have hmap : ∀ c, stateOf (processOne m i).1 c = stateOf m c := by
            intro c
            by_cases hc : i.client_info.client = c
            · subst hc
              rw [stateOf, processOne_lookup_self, stateOf, hl]
              simp [hi]
            · rw [stateOf, stateOf, processOne_lookup_ne m i c hc]
          have hrest : ∀ j ∈ rest,
              stateOf (processOne m i).1 j.client_info.client = some j.state := by
            intro j hj
            rw [hmap]
            exact h j (List.mem_cons_of_mem i hj)
          obtain ⟨hev2, hmap2⟩ := ih (processOne m i).1 hrest
          constructor
          · show (processOne m i).2 ++ (processList (processOne m i).1 rest).2 = []
            rw [hev, hev2]
            rfl
          · intro c
            show stateOf (processList (processOne m i).1 rest).1 c = stateOf m c
            rw [hmap2 c, hmap c]

lemma processList_mentions_count (s : List RemoteDesktopSessionInfo) (c : String) :
    ∀ m : List (String × ClientData),
      (processList m s).2.countP (mentionsClient c) ≤
        s.countP (fun i => i.client_info.client == c) := by
  induction s with
  | nil =>
      intro m
      simp [processList]
  | cons i rest ih =>
      intro m
      show ((processOne m i).2 ++ (processList (processOne m i).1 rest).2).countP _ ≤ _
      rw [List.countP_append, List.countP_cons]
      by_cases hic : i.client_info.client = c
      · have hhead : (processOne m i).2.countP (mentionsClient c) ≤ 1 :=
          le_trans (List.countP_le_length _) (processOne_events_len m i)
        rw [if_pos (by simp [hic])]
        have htail := ih (processOne m i).1
        omega
      · have hhead : (processOne m i).2.countP (mentionsClient c) = 0 := by
          rw [List.countP_eq_zero]
          intro e he
          rcases processOne_events_cases m i e he with rfl | rfl
          · intro hm
            exact hic ((mentionsClient_activatedMsg c _).mp hm)
          · intro hm
            exact hic ((mentionsClient_deactivatedMsg c _).mp hm)
        rw [if_neg (by simp [hic]), hhead]
        simpa using ih (processOne m i).1

lemma absenceList_nil_snapshot (m : List (String × ClientData)) :
    (absenceList [] m).2 =
      (m.filter (fun p => p.2.state == RemoteDesktopSessionState.Active)).map
        (fun p => deactivatedMsg p.1) := by
  induction m with
  | nil => rfl
  | cons p rest ih =>
      obtain ⟨k, d⟩ := p
      by_cases hact : d.state = RemoteDesktopSessionState.Active
      · rw [show (absenceList [] ((k, d) :: rest)).2 =
            deactivatedMsg k :: (absenceList [] rest).2 by
              show ((if _ then _ else _ : List (String × ClientData) × List String)).2 = _
              rw [if_pos ⟨rfl, hact⟩]]
        rw [List.filter_cons_of_pos (by simp [hact])]
        simp [ih]
      · rw [show (absenceList [] ((k, d) :: rest)).2 = (absenceList [] rest).2 by
              show ((if _ then _ else _ : List (String × ClientData) × List String)).2 = _
              rw [if_neg (by
                rintro ⟨-, hp⟩
                exact hact hp)]]
        rw [List.filter_cons_of_neg (by simp [hact])]
        exact ih

/-! `update_state`-level helper lemmas. -/

lemma update_state_unfold (self : ClientStateMap) (s : List RemoteDesktopSessionInfo) :
    self.update_state s =
      (⟨(absenceList s (processList self.data s).1).1⟩,
        (processList self.data s).2 ++ (absenceList s (processList self.data s).1).2) := rfl

lemma update_state_act_mem (self : ClientStateMap) (s : List RemoteDesktopSessionInfo)
    (c : String) (hnd : (snapshotIds s).Nodup) :
    activatedMsg c ∈ (self.update_state s).2 ↔
      ((∃ i ∈ s, i.client_info.client = c ∧
          i.state = RemoteDesktopSessionState.Active) ∧
        stateOf self.data c ≠ some RemoteDesktopSessionState.Active) := by
  rw [update_state_unfold]
  simp only [List.mem_append]
  constructor
  · rintro (he | he)
    · exact (processList_act_mem s c self.data hnd).mp he
    · exact absurd he (absenceList_act_not_mem s _ c)
  · intro h
    exact Or.inl ((processList_act_mem s c self.data hnd).mpr h)

lemma update_state_deact_mem (self : ClientStateMap) (s : List RemoteDesktopSessionInfo)
    (c : String) (hwf : wfMap self.data) (hnd : (snapshotIds s).Nodup) :
    deactivatedMsg c ∈ (self.update_state s).2 ↔
      (stateOf self.data c = some RemoteDesktopSessionState.Active ∧
        ¬ ∃ i ∈ s, i.client_info.client = c ∧
          i.state = RemoteDesktopSessionState.Active) := by
  have hwf1 : wfMap (processList self.data s).1 := processList_wf s self.data hwf
  rw [update_state_unfold]
  simp only [List.mem_append]
  have hphase2 : deactivatedMsg c ∈ (absenceList s (processList self.data s).1).2 ↔
      (snapshotHasClient s c = false ∧
        stateOf self.data c = some RemoteDesktopSessionState.Active) := by
    rw [absenceList_deact_mem]
    constructor
    · rintro ⟨d, hd, habs, hact⟩
      have hlk1 := alookup_of_mem_wf _ c d hwf1 hd
      have hfr : alookup (processList self.data s).1 c = alookup self.data c :=
        processList_lookup_of_not_mem s c self.data
          ((snapshotHasClient_false_iff s c).mp habs)
      refine ⟨habs, ?_⟩
      rw [stateOf, ← hfr, hlk1]
      simp [hact]
    · rintro ⟨habs, hst⟩
      have hfr : alookup (processList self.data s).1 c = alookup self.data c :=
        processList_lookup_of_not_mem s c self.data
          ((snapshotHasClient_false_iff s c).mp habs)
      rw [stateOf] at hst
      cases hlk : alookup self.data c with
      | none =>
          rw [hlk] at hst
          simp at hst
      | some d =>
          rw [hlk] at hst
          simp only [Option.map_some', Option.some.injEq] at hst
          refine ⟨d, ?_, habs, hst⟩
          exact mem_of_alookup_wf _ c d (by rw [hfr, hlk])
  constructor
  · rintro (he | he)
    · obtain ⟨⟨i, hi, hic, his⟩, hst⟩ := (processList_deact_mem s c self.data hnd).mp he
      refine ⟨hst, ?_⟩
      rintro ⟨j, hj, hjc, hjs⟩
      have hij : i = j := List.inj_on_of_nodup_map hnd hi hj (by rw [hic, hjc])
      subst hij
      exact his hjs
    · obtain ⟨habs, hst⟩ := hphase2.mp he
      refine ⟨hst, ?_⟩
      rintro ⟨j, hj, hjc, -⟩
      exact ((snapshotHasClient_false_iff s c).mp habs) j hj hjc
  · rintro ⟨hst, hnoact⟩
    by_cases hc : snapshotHasClient s c = false
    · exact Or.inr (hphase2.mpr ⟨hc, hst⟩)
    · left
      rw [Bool.not_eq_false] at hc
      simp only [snapshotHasClient, List.any_eq_true, beq_iff_eq] at hc
      obtain ⟨i, hi, hic⟩ := hc
      apply (processList_deact_mem s c self.data hnd).mpr
      refine ⟨⟨i, hi, hic, ?_⟩, hst⟩
      intro his
      exact hnoact ⟨i, hi, hic, his⟩

lemma update_state_mentions_count (self : ClientStateMap)
    (s : List RemoteDesktopSessionInfo) (c : String)
    (hwf : wfMap self.data) (hnd : (snapshotIds s).Nodup) :
    (self.update_state s).2.countP (mentionsClient c) ≤ 1 := by
  have hwf1 : wfMap (processList self.data s).1 := processList_wf s self.data hwf
  rw [update_state_unfold]
  simp only [List.countP_append]
  by_cases hc : c ∈ snapshotIds s
  · have hp2 : (absenceList s (processList self.data s).1).2.countP
        (mentionsClient c) = 0 := by
      rw [List.countP_eq_zero]
      intro e he hm
      obtain ⟨p, hp, rfl⟩ := absenceList_events_shape s _ e he
      have heq : p.1 = c := (mentionsClient_deactivatedMsg c p.1).mp hm
      subst heq
      obtain ⟨-, -, habs, -⟩ :=
        (absenceList_deact_mem s (processList self.data s).1 p.1).mp he
      exact ((snapshotHasClient_false_iff_ids s p.1).mp habs) hc
    have hp1 : (processList self.data s).2.countP (mentionsClient c) ≤ 1 := by
      refine le_trans (processList_mentions_count s c self.data) ?_
      have : s.countP (fun i => i.client_info.client == c) =
          (snapshotIds s).countP (fun x => x == c) := by
        rw [snapshotIds, List.countP_map]
        rfl
      rw [this]
      exact List.nodup_iff_count_le_one.mp hnd c
    omega
  · have hp1 : (processList self.data s).2.countP (mentionsClient c) = 0 := by
      rw [List.countP_eq_zero]
      intro e he hm
      have hne : ∀ i ∈ s, i.client_info.client ≠ c := by
        intro i hi hic
        exact hc (List.mem_map.mpr ⟨i, hi, hic⟩)
      obtain ⟨hna, hnd2⟩ := processList_not_mentioned s c self.data hne
      simp only [mentionsClient, Bool.or_eq_true, beq_iff_eq] at hm
      rcases hm with rfl | rfl
      · exact hna he
      · exact hnd2 he
    have hp2 : (absenceList s (processList self.data s).1).2.countP
        (mentionsClient c) ≤ 1 := by
      refine le_trans (absenceList_mentions_count s _ c) ?_
      exact List.nodup_iff_count_le_one.mp hwf1 c
    omega

lemma update_state_lookup_absent (self : ClientStateMap)
    (s : List RemoteDesktopSessionInfo) (c : String) (d : ClientData)
    (habs : snapshotHasClient s c = false) (hlk : alookup self.data c = some d) :
    alookup (self.update_state s).1.data c =
      some (if d.state = RemoteDesktopSessionState.Active
        then ⟨RemoteDesktopSessionState.Disconnected, d.user⟩ else d) := by
  rw [update_state_unfold]
  show alookup (absenceList s (processList self.data s).1).1 c = _
  rw [absenceList_lookup]
  rw [processList_lookup_of_not_mem s c self.data
    ((snapshotHasClient_false_iff s c).mp habs), hlk]
  by_cases hact : d.state = RemoteDesktopSessionState.Active
  · simp [habs, hact]
  · simp [habs, hact]

lemma update_state_wf (self : ClientStateMap) (s : List RemoteDesktopSessionInfo)
    (hwf : wfMap self.data) : wfMap (self.update_state s).1.data := by
  rw [update_state_unfold]
  show wfMap (absenceList s (processList self.data s).1).1
  unfold wfMap
  rw [absenceList_map_fst]
  exact processList_wf s self.data hwf

lemma update_state_isSome (self : ClientStateMap) (s : List RemoteDesktopSessionInfo)
    (c : String) (h : (alookup self.data c).isSome) :
    (alookup (self.update_state s).1.data c).isSome := by
  rw [update_state_unfold]
  show (alookup (absenceList s (processList self.data s).1).1 c).isSome
  rw [absenceList_lookup]
  have hps := processList_isSome s c self.data h
  cases hpl : alookup (processList self.data s).1 c with
  | none =>
      rw [hpl] at hps
      exact absurd hps (by simp)
  | some d => rfl

lemma update_state_stateOf_of_mem (self : ClientStateMap)
    (s : List RemoteDesktopSessionInfo) (hnd : (snapshotIds s).Nodup)
    (i : RemoteDesktopSessionInfo) (hi : i ∈ s) :
    stateOf (self.update_state s).1.data i.client_info.client = some i.state := by
  rw [update_state_unfold]
  show stateOf (absenceList s (processList self.data s).1).1 i.client_info.client = _
  rw [stateOf, absenceList_lookup,
    processList_lookup_entry s hnd i hi self.data]
  rw [snapshotHasClient_true_of_mem s i hi]
  simp

lemma update_state_stateOf_of_absent (self : ClientStateMap)
    (s : List RemoteDesktopSessionInfo) (c : String)
    (habs : snapshotHasClient s c = false) :
    stateOf (self.update_state s).1.data c ≠
      some RemoteDesktopSessionState.Active := by
  rw [update_state_unfold]
  show stateOf (absenceList s (processList self.data s).1).1 c ≠ _
  rw [stateOf, absenceList_lookup,
    processList_lookup_of_not_mem s c self.data
      ((snapshotHasClient_false_iff s c).mp habs)]
  cases hlk : alookup self.data c with
  | none => simp
  | some d =>
      by_cases hact : d.state = RemoteDesktopSessionState.Active
      · simp [habs, hact]
      · simp [habs, hact]

lemma aset_isSome {α : Type} (m : List (String × α)) (c : String) (d : α) (c' : String)
    (h : (alookup m c').isSome) : (alookup (aset m c d) c').isSome := by
  by_cases hc : c' = c
  · subst hc
    cases hl : alookup m c' with
    | none =>
        rw [hl] at h
        exact absurd h (by simp)
    | some p =>
        rw [alookup_aset_self m c' d p hl]
        rfl
  · rw [alookup_aset_ne m c c' d hc]
    exact h

lemma read_active_lookup_isSome (srv : String)
    (fetch : Except String (List RemoteDesktopSessionInfo))
    (reg : ServerClientMap) (c : String) (h : (alookup reg c).isSome)
    (r : ServerClientMap × List String)
    (hr : read_active_connections srv fetch reg = some r) :
    (alookup r.1 c).isSome := by
  cases fetch with
  | error e =>
      simp only [read_active_connections, Option.some.injEq] at hr
      rw [← hr]
      exact h
  | ok infos =>
      simp only [read_active_connections] at hr
      cases hl : alookup reg srv with
      | none =>
          rw [hl] at hr
          simp at hr
      | some tbl =>
          rw [hl] at hr
          simp only [Option.some.injEq] at hr
          rw [← hr]
          exact aset_isSome reg srv _ c h

lemma refresh_ne_none
    (outcomes : List (String × Except String (List RemoteDesktopSessionInfo))) :
    ∀ reg : ServerClientMap, (∀ p ∈ outcomes, (alookup reg p.1).isSome) →
      refresh_all_connections outcomes reg ≠ none := by
  induction outcomes with
  | nil =>
      intro reg _
      simp [refresh_all_connections]
  | cons p rest ih =>
      intro reg h
      obtain ⟨srv, outc⟩ := p
      have hsrv : (alookup reg srv).isSome := h (srv, outc) (List.mem_cons_self _ _)
      have hsome : ∃ r, read_active_connections srv outc reg = some r := by
        cases outc with
        | error e => exact ⟨(reg, []), rfl⟩
        | ok infos =>
            cases hl : alookup reg srv with
            | none =>
                rw [hl] at hsrv
                exact absurd hsrv (by simp)
            | some tbl =>
                refine ⟨?_, ?_⟩
                · exact (aset reg srv (tbl.update_state infos).1,
                    (tbl.update_state infos).2.map
                      (fun out_string => out_string ++ " '" ++ srv ++ "'"))
                · simp only [read_active_connections, hl]
      obtain ⟨r, hr⟩ := hsome
      have hrest : ∀ q ∈ rest, (alookup r.1 q.1).isSome := by
        intro q hq
        exact read_active_lookup_isSome srv outc reg q.1
          (h q (List.mem_cons_of_mem _ hq)) r hr
      have hne := ih r.1 hrest
      show refresh_all_connections ((srv, outc) :: rest) reg ≠ none
      simp only [refresh_all_connections, hr]
      obtain ⟨m1, evs⟩ := r
      cases hrec : refresh_all_connections rest m1 with
      | none => exact absurd hrec hne
      | some r2 =>
          obtain ⟨m2, evs2⟩ := r2
          simp

lemma postAll_all_ok (sinkFails : String → Bool) (msgs : List String)
    (h : ∀ e ∈ msgs, sinkFails e = false) : postAll sinkFails msgs = (msgs, true) := by
  induction msgs with
  | nil => rfl
  | cons a rest ih =>
      have ha : sinkFails a = false := h a (List.mem_cons_self _ _)
      have hrest := ih (fun e he => h e (List.mem_cons_of_mem _ he))
      simp [postAll, ha, hrest]

lemma postAll_fail_at (sinkFails : String → Bool) (pre : List String) (bad : String)
    (post : List String) (hpre : ∀ e ∈ pre, sinkFails e = false)
    (hbad : sinkFails bad = true) :
    postAll sinkFails (pre ++ bad :: post) = (pre ++ [bad], false) := by
  induction pre with
  | nil =>
      simp [postAll, hbad]
  | cons a rest ih =>
      have ha : sinkFails a = false := hpre a (List.mem_cons_self _ _)
      have hrest := ih (fun e he => hpre e (List.mem_cons_of_mem _ he))
      simp [postAll, ha, hrest]

/-! Claim theorems. -/

/-- C1 counterexample: on an empty table, a snapshot listing the same client
twice (`Active` then `Disconnected`) makes `update_state` emit a
"deactivated" event for a client that was unseen before the call (stored
state `none`, never `Active`), so at poll granularity the event is not an
Active-to-non-Active/absent transition; the call also emits an "activated"
event although the client's state over the whole call goes unseen to
non-Active. -/
theorem update_state_duplicate_snapshot_spurious_deactivation :
    (ClientStateMap.update_state ⟨[]⟩
        [⟨⟨"PC1", "u"⟩, RemoteDesktopSessionState.Active⟩,
         ⟨⟨"PC1", "u"⟩, RemoteDesktopSessionState.Disconnected⟩]).2 =
      [activatedMsg "PC1", deactivatedMsg "PC1"] ∧
    stateOf ([] : List (String × ClientData)) "PC1" = none := by
  decide

/-- C1 (amended with: each client identity occurs at most once in the
snapshot): for every well-formed table and duplicate-free snapshot, an
"activated" event for client `c` is emitted exactly when the snapshot lists
`c` as `Active` and the stored state was not `Active` (unseen or
non-Active), and a "deactivated" event exactly when the stored state was
`Active` and the snapshot does not list `c` as `Active` (listed non-Active,
or absent).  In particular a first observation in a non-Active state and a
steady observation emit nothing. -/
theorem update_state_event_characterization (self : ClientStateMap)
    (s : List RemoteDesktopSessionInfo) (c : String)
    (hwf : wfMap self.data) (hnd : (snapshotIds s).Nodup) :
    (activatedMsg c ∈ (self.update_state s).2 ↔
      ((∃ i ∈ s, i.client_info.client = c ∧
          i.state = RemoteDesktopSessionState.Active) ∧
        stateOf self.data c ≠ some RemoteDesktopSessionState.Active)) ∧
    (deactivatedMsg c ∈ (self.update_state s).2 ↔
      (stateOf self.data c = some RemoteDesktopSessionState.Active ∧
        ¬ ∃ i ∈ s, i.client_info.client = c ∧
          i.state = RemoteDesktopSessionState.Active)) :=
  ⟨update_state_act_mem self s c hnd, update_state_deact_mem self s c hwf hnd⟩

/-- C1 witness: the characterization applied to a concrete table holding an
Active "PC2" record and a snapshot showing "PC1" Active. -/
theorem update_state_event_characterization_witness :
    wfMap [("PC2", ClientData.mk RemoteDesktopSessionState.Active "v")] ∧
    (snapshotIds ([⟨⟨"PC1", "u"⟩, RemoteDesktopSessionState.Active⟩] : List RemoteDesktopSessionInfo)).Nodup ∧
    ((activatedMsg "PC1" ∈
        (ClientStateMap.update_state
          ⟨[("PC2", ClientData.mk RemoteDesktopSessionState.Active "v")]⟩
          [⟨⟨"PC1", "u"⟩, RemoteDesktopSessionState.Active⟩]).2 ↔
      ((∃ i ∈ ([⟨⟨"PC1", "u"⟩, RemoteDesktopSessionState.Active⟩] :
            List RemoteDesktopSessionInfo),
          i.client_info.client = "PC1" ∧
          i.state = RemoteDesktopSessionState.Active) ∧
        stateOf [("PC2", ClientData.mk RemoteDesktopSessionState.Active "v")] "PC1" ≠
          some RemoteDesktopSessionState.Active)) ∧
    (deactivatedMsg "PC1" ∈
        (ClientStateMap.update_state
          ⟨[("PC2", ClientData.mk RemoteDesktopSessionState.Active "v")]⟩
          [⟨⟨"PC1", "u"⟩, RemoteDesktopSessionState.Active⟩]).2 ↔
      (stateOf [("PC2", ClientData.mk RemoteDesktopSessionState.Active "v")] "PC1" =
          some RemoteDesktopSessionState.Active ∧
        ¬ ∃ i ∈ ([⟨⟨"PC1", "u"⟩, RemoteDesktopSessionState.Active⟩] :
            List RemoteDesktopSessionInfo),
          i.client_info.client = "PC1" ∧
          i.state = RemoteDesktopSessionState.Active))) :=
  ⟨by decide, by decide,
    update_state_event_characterization
      ⟨[("PC2", ClientData.mk RemoteDesktopSessionState.Active "v")]⟩
      [⟨⟨"PC1", "u"⟩, RemoteDesktopSessionState.Active⟩] "PC1"
      (by decide) (by decide)⟩

/-- C2 counterexample: on an empty table registered for "SRV1", the snapshot
`[{id:"PC1", user:"alice", state:Active}]` produces the single event
`"'PC1' is now connected to 'SRV1'"` built from the raw client name; the
code never composes a `client/user` identity, so the event is not the
claimed `"'PC1/alice' is now connected to 'SRV1'"`. -/
theorem scenario1_event_string_counterexample :
    (read_active_connections "SRV1"
        (Except.ok [⟨⟨"PC1", "alice"⟩, RemoteDesktopSessionState.Active⟩])
        [("SRV1", ClientStateMap.mk [])]).map Prod.snd =
      some ["'PC1' is now connected to 'SRV1'"] ∧
    ("'PC1' is now connected to 'SRV1'" : String) ≠
      "'PC1/alice' is now connected to 'SRV1'" := by
  decide

/-- C2 (amended with: the event names the raw client identity "PC1", not a
composed "PC1/alice"; the user name is stored in the record but is not part
of the identity or the message): on an empty table, the snapshot
`[{id:"PC1", user:"alice", state:Active}]` for server "SRV1" produces
exactly the event `"'PC1' is now connected to 'SRV1'"` and stores an
`Active` record for key "PC1" with user "alice". -/
theorem scenario1_raw_client_event :
    read_active_connections "SRV1"
        (Except.ok [⟨⟨"PC1", "alice"⟩, RemoteDesktopSessionState.Active⟩])
        [("SRV1", ClientStateMap.mk [])] =
      some ([("SRV1", ClientStateMap.mk
          [("PC1", ClientData.mk RemoteDesktopSessionState.Active "alice")])],
        ["'PC1' is now connected to 'SRV1'"]) := by
  decide

/-- C3: a record stored `Active` whose identity is entirely missing from the
snapshot receives exactly one "deactivated" event in that `update_state`
call and its stored state becomes `Disconnected` (user field kept), and an
empty snapshot produces exactly the absence-inferred deactivation events of
all currently-Active records. -/
theorem absence_inference_deactivation (self : ClientStateMap)
    (s : List RemoteDesktopSessionInfo) (c : String) (d : ClientData)
    (hwf : wfMap self.data) (hlk : alookup self.data c = some d)
    (hact : d.state = RemoteDesktopSessionState.Active)
    (habs : snapshotHasClient s c = false) :
    (self.update_state s).2.countP (fun e => e == deactivatedMsg c) = 1 ∧
    alookup (self.update_state s).1.data c =
      some (ClientData.mk RemoteDesktopSessionState.Disconnected d.user) ∧
    ∀ m2 : List (String × ClientData),
      (ClientStateMap.update_state ⟨m2⟩ []).2 =
        (m2.filter (fun p => p.2.state == RemoteDesktopSessionState.Active)).map
          (fun p => deactivatedMsg p.1) := by
  refine ⟨?_, ?_, ?_⟩
  · rw [update_state_unfold]
    show ((processList self.data s).2 ++
      (absenceList s (processList self.data s).1).2).countP _ = 1
    rw [List.countP_append]
    have hp1 : (processList self.data s).2.countP
        (fun e => e == deactivatedMsg c) = 0 := by
      rw [List.countP_eq_zero]
      intro e he hm
      rw [beq_iff_eq] at hm
      subst hm
      exact (processList_not_mentioned s c self.data
        ((snapshotHasClient_false_iff s c).mp habs)).2 he
    have hp2 : (absenceList s (processList self.data s).1).2.countP
        (fun e => e == deactivatedMsg c) = 1 := by
      apply absenceList_deact_count_one s _ c d
        (processList_wf s self.data hwf)
      · rw [processList_lookup_of_not_mem s c self.data
          ((snapshotHasClient_false_iff s c).mp habs)]
        exact hlk
      · exact habs
      · exact hact
    rw [hp1, hp2]
  · have h := update_state_lookup_absent self s c d habs hlk
    rw [h, if_pos hact]
  · intro m2
    show (processList m2 []).2 ++ (absenceList [] (processList m2 []).1).2 = _
    show ([] : List String) ++ (absenceList [] m2).2 = _
    rw [List.nil_append]
    exact absenceList_nil_snapshot m2

/-- C3 witness: a table holding an Active "PC1" record, polled with a
snapshot mentioning only "PC2". -/
theorem absence_inference_deactivation_witness :
    wfMap [("PC1", ClientData.mk RemoteDesktopSessionState.Active "alice")] ∧
    alookup [("PC1", ClientData.mk RemoteDesktopSessionState.Active "alice")] "PC1" =
      some (ClientData.mk RemoteDesktopSessionState.Active "alice") ∧
    snapshotHasClient [⟨⟨"PC2", "bob"⟩, RemoteDesktopSessionState.Active⟩] "PC1" = false ∧
    ((ClientStateMap.update_state
        ⟨[("PC1", ClientData.mk RemoteDesktopSessionState.Active "alice")]⟩
        [⟨⟨"PC2", "bob"⟩, RemoteDesktopSessionState.Active⟩]).2.countP
        (fun e => e == deactivatedMsg "PC1") = 1 ∧
      alookup (ClientStateMap.update_state
        ⟨[("PC1", ClientData.mk RemoteDesktopSessionState.Active "alice")]⟩
        [⟨⟨"PC2", "bob"⟩, RemoteDesktopSessionState.Active⟩]).1.data "PC1" =
        some (ClientData.mk RemoteDesktopSessionState.Disconnected "alice") ∧
      ∀ m2 : List (String × ClientData),
        (ClientStateMap.update_state ⟨m2⟩ []).2 =
          (m2.filter (fun p => p.2.state == RemoteDesktopSessionState.Active)).map
            (fun p => deactivatedMsg p.1)) :=
  ⟨by decide, by decide, by decide,
    absence_inference_deactivation
      ⟨[("PC1", ClientData.mk RemoteDesktopSessionState.Active "alice")]⟩
      [⟨⟨"PC2", "bob"⟩, RemoteDesktopSessionState.Active⟩] "PC1"
      (ClientData.mk RemoteDesktopSessionState.Active "alice")
      (by decide) (by decide) (by decide) (by decide)⟩

/-- C4 counterexample: on an empty table, a snapshot listing "PC1" twice
(`Active` then `Disconnected`) makes one `update_state` call emit two events
mentioning "PC1", refuting "at most one event per client per call" for
snapshots with repeated identities. -/
theorem duplicate_snapshot_two_events_for_one_client :
    (ClientStateMap.update_state ⟨[]⟩
        [⟨⟨"PC1", "u"⟩, RemoteDesktopSessionState.Active⟩,
         ⟨⟨"PC1", "u"⟩, RemoteDesktopSessionState.Disconnected⟩]).2.countP
      (mentionsClient "PC1") = 2 := by
  decide

/-- C4 (amended with: the snapshot's client identities are pairwise
distinct): for every well-formed table and duplicate-free snapshot, a single
`update_state` call emits at most one event mentioning any given client. -/
theorem at_most_one_event_per_client (self : ClientStateMap)
    (s : List RemoteDesktopSessionInfo) (c : String)
    (hwf : wfMap self.data) (hnd : (snapshotIds s).Nodup) :
    (self.update_state s).2.countP (mentionsClient c) ≤ 1 :=
  update_state_mentions_count self s c hwf hnd

/-- C4 witness: a table with an Active "PC1" record fed a snapshot that
reports "PC1" Disconnected and "PC2" Active. -/
theorem at_most_one_event_per_client_witness :
    wfMap [("PC1", ClientData.mk RemoteDesktopSessionState.Active "alice")] ∧
    (snapshotIds ([⟨⟨"PC1", "alice"⟩, RemoteDesktopSessionState.Disconnected⟩,
        ⟨⟨"PC2", "bob"⟩, RemoteDesktopSessionState.Active⟩] :
      List RemoteDesktopSessionInfo)).Nodup ∧
    (ClientStateMap.update_state
        ⟨[("PC1", ClientData.mk RemoteDesktopSessionState.Active "alice")]⟩
        [⟨⟨"PC1", "alice"⟩, RemoteDesktopSessionState.Disconnected⟩,
         ⟨⟨"PC2", "bob"⟩, RemoteDesktopSessionState.Active⟩]).2.countP
      (mentionsClient "PC1") ≤ 1 :=
  ⟨by decide, by decide,
    at_most_one_event_per_client
      ⟨[("PC1", ClientData.mk RemoteDesktopSessionState.Active "alice")]⟩
      [⟨⟨"PC1", "alice"⟩, RemoteDesktopSessionState.Disconnected⟩,
       ⟨⟨"PC2", "bob"⟩, RemoteDesktopSessionState.Active⟩] "PC1"
      (by decide) (by decide)⟩

/-- C5 counterexample: with the duplicate snapshot ("PC1" `Active` then
`Disconnected`), the second of two consecutive identical `update_state`
calls still emits events (the stored state ends `Disconnected`, so the
snapshot's `Active` entry re-activates it every call), refuting idempotence
for arbitrary snapshots. -/
theorem repeat_snapshot_not_quiescent_with_duplicates :
    (ClientStateMap.update_state
        (ClientStateMap.update_state ⟨[]⟩
          [⟨⟨"PC1", "u"⟩, RemoteDesktopSessionState.Active⟩,
           ⟨⟨"PC1", "u"⟩, RemoteDesktopSessionState.Disconnected⟩]).1
        [⟨⟨"PC1", "u"⟩, RemoteDesktopSessionState.Active⟩,
         ⟨⟨"PC1", "u"⟩, RemoteDesktopSessionState.Disconnected⟩]).2 =
      [activatedMsg "PC1", deactivatedMsg "PC1"] ∧
    (ClientStateMap.update_state
        (ClientStateMap.update_state ⟨[]⟩
          [⟨⟨"PC1", "u"⟩, RemoteDesktopSessionState.Active⟩,
           ⟨⟨"PC1", "u"⟩, RemoteDesktopSessionState.Disconnected⟩]).1
        [⟨⟨"PC1", "u"⟩, RemoteDesktopSessionState.Active⟩,
         ⟨⟨"PC1", "u"⟩, RemoteDesktopSessionState.Disconnected⟩]).2 ≠ [] := by
  constructor
  · decide
  · decide

/-- C5 (amended with: the snapshot's client identities are pairwise
distinct): for every well-formed table and duplicate-free snapshot, the
second of two consecutive `update_state` calls with the same snapshot
returns an empty event list. -/
theorem update_state_idempotent_on_distinct_ids (self : ClientStateMap)
    (s : List RemoteDesktopSessionInfo)
    (hwf : wfMap self.data) (hnd : (snapshotIds s).Nodup) :
    (ClientStateMap.update_state (self.update_state s).1 s).2 = [] := by
  have h1 : ∀ i ∈ s,
      stateOf (self.update_state s).1.data i.client_info.client = some i.state :=
    fun i hi => update_state_stateOf_of_mem self s hnd i hi
  have hwf1 : wfMap (self.update_state s).1.data := update_state_wf self s hwf
  obtain ⟨hev, hpres⟩ := processList_no_events s (self.update_state s).1.data h1
  show (processList (self.update_state s).1.data s).2 ++
    (absenceList s (processList (self.update_state s).1.data s).1).2 = []
  rw [hev]
  have habs : (absenceList s (processList (self.update_state s).1.data s).1).2 = [] := by
    apply absenceList_no_events s _ (processList_wf s _ hwf1)
    intro c d hlk hact
    by_contra hcf
    rw [Bool.not_eq_true] at hcf
    have hst : stateOf (processList (self.update_state s).1.data s).1 c =
        some RemoteDesktopSessionState.Active := by
      rw [stateOf, hlk]
      simp [hact]
    rw [hpres c] at hst
    exact update_state_stateOf_of_absent self s c hcf hst
  rw [habs]
  rfl

/-- C5 witness: empty table, then twice the snapshot showing "PC1" Active. -/
theorem update_state_idempotent_on_distinct_ids_witness :
    wfMap ([] : List (String × ClientData)) ∧
    (snapshotIds ([⟨⟨"PC1", "u"⟩, RemoteDesktopSessionState.Active⟩] :
      List RemoteDesktopSessionInfo)).Nodup ∧
    (ClientStateMap.update_state
        (ClientStateMap.update_state ⟨[]⟩
          [⟨⟨"PC1", "u"⟩, RemoteDesktopSessionState.Active⟩]).1
        [⟨⟨"PC1", "u"⟩, RemoteDesktopSessionState.Active⟩]).2 = [] :=
  ⟨by decide, by decide,
    update_state_idempotent_on_distinct_ids ⟨[]⟩
      [⟨⟨"PC1", "u"⟩, RemoteDesktopSessionState.Active⟩]
      (by decide) (by decide)⟩

/-- C6 counterexample: one task batch `["e1", "e2"]` where the sink fails on
"e1": the `?` on `msg_sender.post` makes the cycle's delivery loop return
the error immediately, so "e2" is never handed to the sink — a sink failure
does prevent delivery attempts for subsequent events of the same cycle. -/
theorem sink_failure_stops_cycle_delivery :
    deliverCycle (fun m => m == "e1") [["e1", "e2"]] = (["e1"], false) ∧
    "e2" ∉ (deliverCycle (fun m => m == "e1") [["e1", "e2"]]).1 := by
  constructor
  · decide
  · decide

/-- C6 (amended with: the failure is returned as the cycle's error — logged
by the main loop — and it does prevent delivery of every later event): when
the sink fails on event `bad` after successfully taking the events `pre`,
the cycle's delivery stops with exactly `pre ++ [bad]` attempted; the
remaining events of that batch and all later batches are never attempted,
and `refresh_all_connections` reports the failure to its caller. -/
theorem sink_failure_aborts_remaining_deliveries (sinkFails : String → Bool)
    (pre : List String) (bad : String) (post : List String)
    (rest : List (List String))
    (hpre : ∀ e ∈ pre, sinkFails e = false) (hbad : sinkFails bad = true) :
    deliverCycle sinkFails ((pre ++ bad :: post) :: rest) = (pre ++ [bad], false) := by
  show (if (postAll sinkFails (pre ++ bad :: post)).2 then _ else
      ((postAll sinkFails (pre ++ bad :: post)).1, false)) = _
  rw [postAll_fail_at sinkFails pre bad post hpre hbad]
  simp

/-- C6 witness: failing sink on "e1" with one later event and one later
batch. -/
theorem sink_failure_aborts_remaining_deliveries_witness :
    (∀ e ∈ ([] : List String), (fun m => m == "e1") e = false) ∧
    (fun m => m == "e1") "e1" = true ∧
    deliverCycle (fun m => m == "e1") (([] ++ "e1" :: ["e2"]) :: [["e3"]]) =
      ([] ++ ["e1"], false) :=
  ⟨by decide, by decide,
    sink_failure_aborts_remaining_deliveries (fun m => m == "e1")
      [] "e1" ["e2"] [["e3"]] (by decide) (by decide)⟩

/-- C7: with two registered servers, if server A's connection or fetch fails
while server B reports one Active session on an empty table, the cycle
produces exactly the one event for B's client and server A's table is left
exactly as it was (the failing task contributes no events and does not stop
B's processing). -/
theorem cross_server_isolation (sA sB c u err : String) (hne : sA ≠ sB) :
    refresh_all_connections
        [(sA, Except.error err),
         (sB, Except.ok [⟨⟨c, u⟩, RemoteDesktopSessionState.Active⟩])]
        [(sA, ClientStateMap.mk []), (sB, ClientStateMap.mk [])] =
      some ([(sA, ClientStateMap.mk []),
             (sB, ClientStateMap.mk
               [(c, ClientData.mk RemoteDesktopSessionState.Active u)])],
        [activatedMsg c ++ " '" ++ sB ++ "'"]) ∧
    alookup [(sA, ClientStateMap.mk []),
             (sB, ClientStateMap.mk
               [(c, ClientData.mk RemoteDesktopSessionState.Active u)])] sA =
      some (ClientStateMap.mk []) := by
  have h2 : alookup [(sA, ClientStateMap.mk []), (sB, ClientStateMap.mk [])] sB =
      some (ClientStateMap.mk []) := by
    simp [alookup, hne]
  have h3 : ClientStateMap.update_state (ClientStateMap.mk [])
        [⟨⟨c, u⟩, RemoteDesktopSessionState.Active⟩] =
      (ClientStateMap.mk [(c, ClientData.mk RemoteDesktopSessionState.Active u)],
        [activatedMsg c]) := by
    simp [ClientStateMap.update_state, processList, processOne, alookup,
      absenceList, snapshotHasClient]
  have h4 : aset [(sA, ClientStateMap.mk []), (sB, ClientStateMap.mk [])] sB
        (ClientStateMap.mk [(c, ClientData.mk RemoteDesktopSessionState.Active u)]) =
      [(sA, ClientStateMap.mk []),
       (sB, ClientStateMap.mk
         [(c, ClientData.mk RemoteDesktopSessionState.Active u)])] := by
    simp [aset, hne]
  have h5 : read_active_connections sB
        (Except.ok [⟨⟨c, u⟩, RemoteDesktopSessionState.Active⟩])
        [(sA, ClientStateMap.mk []), (sB, ClientStateMap.mk [])] =
      some ([(sA, ClientStateMap.mk []),
             (sB, ClientStateMap.mk
               [(c, ClientData.mk RemoteDesktopSessionState.Active u)])],
        [activatedMsg c ++ " '" ++ sB ++ "'"]) := by
    simp only [read_active_connections, h2, h3, h4]
    simp
  constructor
  · show (match read_active_connections sA (Except.error err)
        [(sA, ClientStateMap.mk []), (sB, ClientStateMap.mk [])] with
      | none => none
      | some (m1, evs) =>
          match refresh_all_connections
              [(sB, Except.ok [⟨⟨c, u⟩, RemoteDesktopSessionState.Active⟩])] m1 with
          | none => none
          | some (m2, evs2) => some (m2, evs ++ evs2)) = _
    show (match refresh_all_connections
        [(sB, Except.ok [⟨⟨c, u⟩, RemoteDesktopSessionState.Active⟩])]
        [(sA, ClientStateMap.mk []), (sB, ClientStateMap.mk [])] with
      | none => none
      | some (m2, evs2) => some (m2, ([] : List String) ++ evs2)) = _
    rw [show refresh_all_connections
        [(sB, Except.ok [⟨⟨c, u⟩, RemoteDesktopSessionState.Active⟩])]
        [(sA, ClientStateMap.mk []), (sB, ClientStateMap.mk [])] =
      some ([(sA, ClientStateMap.mk []),
             (sB, ClientStateMap.mk
               [(c, ClientData.mk RemoteDesktopSessionState.Active u)])],
        [activatedMsg c ++ " '" ++ sB ++ "'"]) from by
        show (match read_active_connections sB
            (Except.ok [⟨⟨c, u⟩, RemoteDesktopSessionState.Active⟩])
            [(sA, ClientStateMap.mk []), (sB, ClientStateMap.mk [])] with
          | none => none
          | some (m1, evs) =>
              match (some ([(sA, ClientStateMap.mk []), (sB, ClientStateMap.mk [])], ([] : List String)) : Option (ServerClientMap × List String)) with
              | _ => some (m1, evs ++ [])) = _
        rw [h5]
        simp]
    simp
  · simp [alookup]

/-- C7 witness: concrete server names "SRVA" and "SRVB" with a session of
client "PC1" and user "alice". -/
theorem cross_server_isolation_witness :
    ("SRVA" : String) ≠ "SRVB" ∧
    (refresh_all_connections
        [("SRVA", Except.error "boom"),
         ("SRVB", Except.ok [⟨⟨"PC1", "alice"⟩, RemoteDesktopSessionState.Active⟩])]
        [("SRVA", ClientStateMap.mk []), ("SRVB", ClientStateMap.mk [])] =
      some ([("SRVA", ClientStateMap.mk []),
             ("SRVB", ClientStateMap.mk
               [("PC1", ClientData.mk RemoteDesktopSessionState.Active "alice")])],
        [activatedMsg "PC1" ++ " '" ++ "SRVB" ++ "'"]) ∧
    alookup [("SRVA", ClientStateMap.mk []),
             ("SRVB", ClientStateMap.mk
               [("PC1", ClientData.mk RemoteDesktopSessionState.Active "alice")])] "SRVA" =
      some (ClientStateMap.mk [])) :=
  ⟨by decide,
    cross_server_isolation "SRVA" "SRVB" "PC1" "alice" "boom" (by decide)⟩

/-- C8: `update_state` never removes a key — every client identity present
in the table before the call is still present after it, so the key set
grows monotonically across polls. -/
theorem update_state_preserves_keys (self : ClientStateMap)
    (s : List RemoteDesktopSessionInfo) (c : String)
    (h : (alookup self.data c).isSome) :
    (alookup (self.update_state s).1.data c).isSome :=
  update_state_isSome self s c h

/-- C8 witness: a stored "PC1" record survives a poll with an empty
snapshot. -/
theorem update_state_preserves_keys_witness :
    (alookup [("PC1", ClientData.mk RemoteDesktopSessionState.Active "u")] "PC1").isSome ∧
    (alookup (ClientStateMap.update_state
        ⟨[("PC1", ClientData.mk RemoteDesktopSessionState.Active "u")]⟩
        []).1.data "PC1").isSome :=
  ⟨by decide,
    update_state_preserves_keys
      ⟨[("PC1", ClientData.mk RemoteDesktopSessionState.Active "u")]⟩
      [] "PC1" (by decide)⟩

/-- C9: `read_active_connections` panics (the `unwrap` on the registry
lookup, modelled as `none`) exactly when the fetch succeeded and the polled
server is not registered; hence when every polled server has a registered
table — which `main` establishes before entering the loop — the panic
branch is unreachable across a whole cycle. -/
theorem unregistered_lookup_panics_registered_safe (reg : ServerClientMap)
    (outcomes : List (String × Except String (List RemoteDesktopSessionInfo))) :
    (∀ srv fetch, read_active_connections srv fetch reg = none ↔
      (alookup reg srv = none ∧ ∃ infos, fetch = Except.ok infos)) ∧
    ((∀ p ∈ outcomes, (alookup reg p.1).isSome) →
      refresh_all_connections outcomes reg ≠ none) := by
  constructor
  · intro srv fetch
    cases fetch with
    | error e => simp [read_active_connections]
    | ok infos =>
        cases hl : alookup reg srv with
        | none => simp [read_active_connections, hl]
        | some tbl => simp [read_active_connections, hl]
  · exact refresh_ne_none outcomes reg

/-- C9 witness: a registry holding server "S", polled for "S". -/
theorem unregistered_lookup_panics_registered_safe_witness :
    (∀ p ∈ ([("S", Except.ok ([] : List RemoteDesktopSessionInfo))] :
        List (String × Except String (List RemoteDesktopSessionInfo))),
      (alookup [("S", ClientStateMap.mk [])] p.1).isSome) ∧
    refresh_all_connections
      [("S", Except.ok ([] : List RemoteDesktopSessionInfo))]
      [("S", ClientStateMap.mk [])] ≠ none :=
  ⟨by decide,
    (unregistered_lookup_panics_registered_safe [("S", ClientStateMap.mk [])]
      [("S", Except.ok ([] : List RemoteDesktopSessionInfo))]).2 (by decide)⟩

/-- C10: absence inference is a minimal mutation — a record whose identity
is absent from the snapshot has only its state forced from `Active` to
`Disconnected` (its user field kept), and a record that is absent and
already non-Active is left entirely unchanged, in whatever non-Active state
it held. -/
theorem absent_record_minimal_mutation (self : ClientStateMap)
    (s : List RemoteDesktopSessionInfo) (c : String) (d : ClientData)
    (habs : snapshotHasClient s c = false)
    (hlk : alookup self.data c = some d) :
    (d.state = RemoteDesktopSessionState.Active →
      alookup (self.update_state s).1.data c =
        some (ClientData.mk RemoteDesktopSessionState.Disconnected d.user)) ∧
    (d.state ≠ RemoteDesktopSessionState.Active →
      alookup (self.update_state s).1.data c = some d) := by
  have h := update_state_lookup_absent self s c d habs hlk
  constructor
  · intro hact
    rw [h, if_pos hact]
  · intro hnact
    rw [h, if_neg hnact]

/-- C10 witness: a table with an `Idle` "PC1" record (kept unchanged, not
rewritten to `Disconnected`) and an `Active` "PC2" record (state flipped,
user kept), polled with an empty snapshot. -/
theorem absent_record_minimal_mutation_witness :
    snapshotHasClient [] "PC1" = false ∧
    alookup [("PC1", ClientData.mk RemoteDesktopSessionState.Idle "u"),
             ("PC2", ClientData.mk RemoteDesktopSessionState.Active "v")] "PC1" =
      some (ClientData.mk RemoteDesktopSessionState.Idle "u") ∧
    alookup (ClientStateMap.update_state
        ⟨[("PC1", ClientData.mk RemoteDesktopSessionState.Idle "u"),
          ("PC2", ClientData.mk RemoteDesktopSessionState.Active "v")]⟩ []).1.data "PC1" =
      some (ClientData.mk RemoteDesktopSessionState.Idle "u") ∧
    alookup (ClientStateMap.update_state
        ⟨[("PC1", ClientData.mk RemoteDesktopSessionState.Idle "u"),
          ("PC2", ClientData.mk RemoteDesktopSessionState.Active "v")]⟩ []).1.data "PC2" =
      some (ClientData.mk RemoteDesktopSessionState.Disconnected "v") :=
  ⟨by decide, by decide,
    (absent_record_minimal_mutation
      ⟨[("PC1", ClientData.mk RemoteDesktopSessionState.Idle "u"),
        ("PC2", ClientData.mk RemoteDesktopSessionState.Active "v")]⟩
      [] "PC1" (ClientData.mk RemoteDesktopSessionState.Idle "u")
      (by decide) (by decide)).2 (by decide),
    (absent_record_minimal_mutation
      ⟨[("PC1", ClientData.mk RemoteDesktopSessionState.Idle "u"),
        ("PC2", ClientData.mk RemoteDesktopSessionState.Active "v")]⟩
      [] "PC2" (ClientData.mk RemoteDesktopSessionState.Active "v")
      (by decide) (by decide)).1 (by decide)⟩
